import Mathlib

/-!
Shallow embedding of the two Solidity contracts in
`src/contracts/src/InheritanceAutomation.sol`:

* `InheritanceAutomation` — document registry, bank-gated verification,
  percentage-share inheritance cases, deposit, one-shot distribution and
  withdrawal (lines 21-619 of the source file);
* `SimpleInheritance` — the fixed-split two-party variant with an
  auto-triggered distribution of `SHARE_AMOUNT` to each inheritor on the
  first successful document verification (lines 625-821).

Modelling conventions:

* `address` and `bytes32` are modelled as `Nat`; Solidity mappings are
  total functions `Nat → V` whose default value is the zero struct, exactly
  as EVM storage behaves; existence checks are the source's own sentinel
  tests (`timestamp != 0` resp. `documentHash != 0`).
* Amounts are `Nat`.  Solidity 0.8 uses checked arithmetic (overflow
  reverts rather than wraps), and every quantity here is a sum of
  transferred `msg.value` amounts, which EVM value conservation keeps far
  below `2^256`; so unbounded `Nat` agrees with the source on all
  EVM-reachable states and no `% 2^256` reduction is needed.
* `require(cond, msg)` failures and reverts are an `Except Err` error; the
  error kinds are the spec's §7 taxonomy, mapped from the source's revert
  strings.  A reverted call leaves the pre-call state in force, which the
  `run` wrapper makes explicit.
* Events are emit-only in the source (never read back); they are kept in
  the state as an append-only list so that "emits X" and "leaves the
  ledger unchanged" are both expressible.
* The external funds transfer inside `withdraw` (`msg.sender.call{value:
  amount}("")`) is modelled by a Boolean oracle `transferSucceeds`; the
  state the external callee would observe is exposed as
  `withdrawTransferView`, mirroring the source order: require, debit,
  call, require success, emit.
* `keccak256(abi.encodePacked(content))` is replaced by an injective,
  executable stand-in digest; no claim depends on the digest algorithm,
  only on the hash being a key.
* Pure view functions (`getDocument`, `getBalance`, ...) mutate nothing
  and are omitted; the `nonReentrant` modifier is a no-op in this
  sequential, atomic-call model.
-/

namespace Inheritance

/-- The spec §7 failure taxonomy, mapped from the source's revert strings:
"Document does not exist" / "Case does not exist" / "Document not found" ↦
`NotFound`; "Document already exists" / "Case already exists" ↦
`AlreadyExists`; "Document already verified" ↦ `AlreadyVerified`; "Only
bank can call this function" / owner checks ↦ `Unauthorized`; empty-input
and arity require-messages ↦ `InvalidInput`; "Total share must be 100" ↦
`InvariantViolation`; "Assets already distributed" / "Inheritance already
distributed" ↦ `AlreadyDistributed`; "No assets to distribute" ↦
`NothingToDistribute`; "All documents must be verified" ↦
`NotAllVerified`; "Insufficient balance" ↦ `InsufficientFunds`; "Transfer
failed" ↦ `TransferFailure`; "Index out of bounds" ↦ `IndexOutOfRange`. -/
inductive Err where
  | NotFound
  | AlreadyExists
  | AlreadyVerified
  | Unauthorized
  | InvalidInput
  | InvariantViolation
  | AlreadyDistributed
  | NothingToDistribute
  | NotAllVerified
  | InsufficientFunds
  | TransferFailure
  | IndexOutOfRange
deriving Repr, DecidableEq

/-- Pointwise update of a Solidity mapping. -/
def upd {β : Type} (m : Nat → β) (k : Nat) (v : β) : Nat → β :=
  fun k2 => if k2 = k then v else m k2

/-- Revert semantics: a reverted call leaves the pre-call state in force
and reports the failure kind; a successful call commits the new state. -/
def run {σ : Type} (s : σ) (r : Except Err σ) : σ × Option Err :=
  match r with
  | .ok s2 => (s2, none)
  | .error e => (s, some e)

/-- Injective executable stand-in for
`keccak256(abi.encodePacked(content))`: the content's characters read as
digits in base `1114112 = 0x110000 > Char.toNat c` for every `c`, plus 1
so that no digest is the mapping's 0 sentinel. -/
def keccak256 (content : String) : Nat :=
  1 + content.toList.foldl (fun acc c => acc * 1114112 + c.toNat) 0

namespace InheritanceAutomation

/-- Source struct `Document` (lines 35-43). -/
structure Document where
  documentHash : Nat
  owner : Nat
  timestamp : Nat
  isVerified : Bool
  documentType : String
  encryptedData : String
  bankPublicKey : String
deriving Repr, DecidableEq

/-- The all-zero `Document`, the EVM default for an absent mapping key. -/
def Document.zero : Document := ⟨0, 0, 0, false, "", "", ""⟩

/-- Source struct `Inheritor` (lines 52-57). -/
structure Inheritor where
  wallet : Nat
  share : Nat
  hasReceived : Bool
  receivedAmount : Nat
deriving Repr, DecidableEq

/-- Source struct `InheritanceCase` (lines 68-75).  The `documents` field
holds by-value copies of registry documents, exactly as the source's
`newCase.documents.push(documents[documentHashes[i]])` does. -/
structure InheritanceCase where
  caseId : Nat
  documents : List Document
  inheritors : List Inheritor
  totalAmount : Nat
  isDistributed : Bool
  createdAt : Nat
deriving Repr, DecidableEq

/-- The all-zero `InheritanceCase`, the EVM default for an absent key. -/
def InheritanceCase.zero : InheritanceCase := ⟨0, [], [], 0, false, 0⟩

/-- The contract's events (source lines 125-216). -/
inductive Event where
  | DocumentRegistered (documentHash owner : Nat) (documentType : String) (timestamp : Nat)
  | DocumentVerified (documentHash verifier timestamp : Nat)
  | DocumentEncrypted (documentHash : Nat) (encryptedData : String) (timestamp : Nat)
  | DocumentDecrypted (documentHash : Nat) (decryptedData : String) (timestamp : Nat)
  | InheritanceCaseCreated (caseId creator timestamp : Nat)
  | AssetDistributed (caseId inheritor amount timestamp : Nat)
  | Deposited (sender amount timestamp : Nat)
  | Released (recipient amount timestamp : Nat)
deriving Repr, DecidableEq

/-- Contract storage (source lines 90-114) plus the append-only event log. -/
structure ContractState where
  documents : Nat → Document
  inheritanceCases : Nat → InheritanceCase
  userDocuments : Nat → List Nat
  balances : Nat → Nat
  totalCases : Nat
  totalDocuments : Nat
  allDocumentHashes : List Nat
  bankAddress : Nat
  events : List Event

/-- Constructor (source lines 224-227): all mappings empty, counters zero,
the bank address set once (the source requires it nonzero). -/
def initialState (bank : Nat) : ContractState :=
  { documents := fun _ => Document.zero
    inheritanceCases := fun _ => InheritanceCase.zero
    userDocuments := fun _ => []
    balances := fun _ => 0
    totalCases := 0
    totalDocuments := 0
    allDocumentHashes := []
    bankAddress := bank
    events := [] }

/-- Source `registerDocument` (lines 265-296): digest the content, fail
with `AlreadyExists` if the hash is present (sentinel `timestamp != 0`),
otherwise insert the fresh unverified document, extend the per-user and
global indexes, bump the count and emit. -/
def registerDocument (s : ContractState) (sender : Nat)
    (documentContent documentType : String) (now : Nat) :
    Except Err (ContractState × Nat) :=
  let documentHash := keccak256 documentContent
  if (s.documents documentHash).timestamp ≠ 0 then .error .AlreadyExists
  else .ok
    ({ s with
        documents := upd s.documents documentHash
          ⟨documentHash, sender, now, false, documentType, "", ""⟩
        userDocuments := upd s.userDocuments sender (s.userDocuments sender ++ [documentHash])
        allDocumentHashes := s.allDocumentHashes ++ [documentHash]
        totalDocuments := s.totalDocuments + 1
        events := s.events ++ [.DocumentRegistered documentHash sender documentType now] },
      documentHash)

/-- Source `encryptAndSendToBank` (lines 311-341): the `documentExists`
modifier runs first, then the owner check and the two emptiness checks;
on success the opaque payload and key are stored and emitted. -/
def encryptAndSendToBank (s : ContractState) (sender documentHash : Nat)
    (documentContent bankPublicKey : String) (now : Nat) :
    Except Err (ContractState × String) :=
  if (s.documents documentHash).timestamp = 0 then .error .NotFound
  else if (s.documents documentHash).owner ≠ sender then .error .Unauthorized
  else if documentContent.length = 0 then .error .InvalidInput
  else if bankPublicKey.length = 0 then .error .InvalidInput
  else
    let encryptedData := "ENCRYPTED:" ++ documentContent ++ ":" ++ toString now
    .ok
      ({ s with
          documents := upd s.documents documentHash
            { s.documents documentHash with
                encryptedData := encryptedData, bankPublicKey := bankPublicKey }
          events := s.events ++ [.DocumentEncrypted documentHash encryptedData now] },
        encryptedData)

/-- Source `decryptAndVerifyDocument` (lines 349-381): the body's hash
comparison and `isVerified := true` assignment are commented out in the
source; the live code only emits `DocumentDecrypted` and returns `true`. -/
def decryptAndVerifyDocument (s : ContractState) (documentHash : Nat)
    (decryptedContent : String) (now : Nat) : Except Err (ContractState × Bool) :=
  .ok
    ({ s with events := s.events ++ [.DocumentDecrypted documentHash decryptedContent now] },
      true)

/-- Source `verifyDocumentHash` (lines 608-618): the comparison against
the recomputed digest is commented out; the live code returns `true`
unconditionally for every input. -/
def verifyDocumentHash (s : ContractState) (documentHash : Nat)
    (documentContent : String) : Bool :=
  true

/-- Source `verifyDocument` (lines 387-397).  Modifier order matters: the
source lists `documentExists(documentHash)` before `onlyBank`, so an
absent hash reverts `NotFound` before the caller is ever checked; only
then comes the `AlreadyVerified` require and the one-way flip. -/
def verifyDocument (s : ContractState) (sender documentHash now : Nat) :
    Except Err ContractState :=
  if (s.documents documentHash).timestamp = 0 then .error .NotFound
  else if sender ≠ s.bankAddress then .error .Unauthorized
  else if (s.documents documentHash).isVerified then .error .AlreadyVerified
  else .ok
    { s with
        documents := upd s.documents documentHash
          { s.documents documentHash with isVerified := true }
        events := s.events ++ [.DocumentVerified documentHash sender now] }

/-- Source `createInheritanceCase` (lines 413-455), with the source's
check order: case uniqueness, the three input-shape requires, the share
sum (line 429), and only then document existence inside the copy loop
(line 438).  The documents are snapshotted by value into the case. -/
def createInheritanceCase (s : ContractState) (sender caseId : Nat)
    (documentHashes : List Nat) (inheritorAddresses : List Nat)
    (shares : List Nat) (now : Nat) : Except Err ContractState :=
  if (s.inheritanceCases caseId).createdAt ≠ 0 then .error .AlreadyExists
  else if documentHashes.length = 0 then .error .InvalidInput
  else if inheritorAddresses.length ≠ shares.length then .error .InvalidInput
  else if inheritorAddresses.length = 0 then .error .InvalidInput
  else if shares.sum ≠ 100 then .error .InvariantViolation
  else if documentHashes.any (fun h => (s.documents h).timestamp = 0) then .error .NotFound
  else .ok
    { s with
        inheritanceCases := upd s.inheritanceCases caseId
          { caseId := caseId
            documents := (s.inheritanceCases caseId).documents
              ++ documentHashes.map (fun h => s.documents h)
            inheritors := (s.inheritanceCases caseId).inheritors
              ++ List.zipWith (fun a share => ⟨a, share, false, 0⟩) inheritorAddresses shares
            totalAmount := (s.inheritanceCases caseId).totalAmount
            isDistributed := (s.inheritanceCases caseId).isDistributed
            createdAt := now }
        totalCases := s.totalCases + 1
        events := s.events ++ [.InheritanceCaseCreated caseId sender now] }

/-- The distribution loop of `distributeAssets` (source lines 484-495):
walks the inheritors in order; whenever `floor(totalAmount * share / 100)`
is positive it marks the inheritor received, records the amount, credits
the wallet's balance and emits `AssetDistributed`. -/
def creditLoop (caseId totalAmount : Nat) (inheritors : List Inheritor)
    (balances : Nat → Nat) (events : List Event) (now : Nat) :
    List Inheritor × (Nat → Nat) × List Event :=
  match inheritors with
  | [] => ([], balances, events)
  | inh :: rest =>
    let amount := totalAmount * inh.share / 100
    if 0 < amount then
      let step :=
        creditLoop caseId totalAmount rest
          (upd balances inh.wallet (balances inh.wallet + amount))
          (events ++ [.AssetDistributed caseId inh.wallet amount now]) now
      ({ inh with hasReceived := true, receivedAmount := amount } :: step.1,
        step.2.1, step.2.2)
    else
      let step := creditLoop caseId totalAmount rest balances events now
      (inh :: step.1, step.2.1, step.2.2)

/-- Source line 481: `inheritanceCase.isDistributed = true`, executed
before the crediting loop. -/
def markDistributed (s : ContractState) (caseId : Nat) : ContractState :=
  { s with
      inheritanceCases := upd s.inheritanceCases caseId
        { s.inheritanceCases caseId with isDistributed := true } }

/-- The crediting phase of `distributeAssets`, run on the state in which
the `isDistributed` flag has already been set. -/
def creditAll (s : ContractState) (caseId now : Nat) : ContractState :=
  let c := s.inheritanceCases caseId
  let step := creditLoop caseId c.totalAmount c.inheritors s.balances s.events now
  { s with
      inheritanceCases := upd s.inheritanceCases caseId { c with inheritors := step.1 }
      balances := step.2.1
      events := step.2.2 }

/-- Source `distributeAssets` (lines 467-496): `caseExists` modifier, the
`AlreadyDistributed` and `NothingToDistribute` requires, then the
verification check — over the document COPIES stored in the case at
creation time (`inheritanceCase.documents[i].isVerified`, line 478), not
the live `documents` registry — then flag-first crediting. -/
def distributeAssets (s : ContractState) (caseId now : Nat) :
    Except Err ContractState :=
  if (s.inheritanceCases caseId).createdAt = 0 then .error .NotFound
  else if (s.inheritanceCases caseId).isDistributed then .error .AlreadyDistributed
  else if (s.inheritanceCases caseId).totalAmount = 0 then .error .NothingToDistribute
  else if ¬ (s.inheritanceCases caseId).documents.all (fun d => d.isVerified) then
    .error .NotAllVerified
  else .ok (creditAll (markDistributed s caseId) caseId now)

/-- Source `deposit` (lines 502-510), with the source's check order:
`msg.value > 0` first, then case existence; on success the case pool and
the depositor's own balance ledger entry both grow by `msg.value` (the
source's dual bookkeeping). -/
def deposit (s : ContractState) (sender caseId msgValue now : Nat) :
    Except Err ContractState :=
  if msgValue = 0 then .error .InvalidInput
  else if (s.inheritanceCases caseId).createdAt = 0 then .error .NotFound
  else .ok
    { s with
        inheritanceCases := upd s.inheritanceCases caseId
          { s.inheritanceCases caseId with
              totalAmount := (s.inheritanceCases caseId).totalAmount + msgValue }
        balances := upd s.balances sender (s.balances sender + msgValue)
        events := s.events ++ [.Deposited sender msgValue now] }

/-- The state observed by the external callee of `withdraw`'s funds
transfer: `none` when the balance require fails before any mutation,
otherwise the state with the debit already applied (source line 519 runs
before the external call on line 521). -/
def withdrawTransferView (s : ContractState) (sender amount : Nat) :
    Option ContractState :=
  if s.balances sender < amount then none
  else some { s with balances := upd s.balances sender (s.balances sender - amount) }

/-- Source `withdraw` (lines 516-525): balance require, debit, external
call (modelled by the `transferSucceeds` oracle), require success —
a failed transfer reverts the whole call, debit included — then emit. -/
def withdraw (s : ContractState) (sender amount : Nat)
    (transferSucceeds : Bool) (now : Nat) : Except Err ContractState :=
  match withdrawTransferView s sender amount with
  | none => .error .InsufficientFunds
  | some s2 =>
    if transferSucceeds then
      .ok { s2 with events := s2.events ++ [.Released sender amount now] }
    else .error .TransferFailure

/-- One state-changing entry point of the contract, with its arguments;
the alphabet of the contract's reachable-state transition system. -/
inductive Op where
  | register (sender : Nat) (documentContent documentType : String) (now : Nat)
  | encryptAndSend (sender documentHash : Nat) (documentContent bankPublicKey : String) (now : Nat)
  | decryptAndVerify (documentHash : Nat) (decryptedContent : String) (now : Nat)
  | verify (sender documentHash now : Nat)
  | createCase (sender caseId : Nat) (documentHashes inheritorAddresses shares : List Nat) (now : Nat)
  | depositOp (sender caseId msgValue now : Nat)
  | distribute (caseId now : Nat)
  | withdrawOp (sender amount : Nat) (transferSucceeds : Bool) (now : Nat)

/-- Apply one entry point under revert semantics: a reverted call leaves
the state unchanged. -/
def applyOp (s : ContractState) (op : Op) : ContractState :=
  match op with
  | .register sender c t now =>
    match registerDocument s sender c t now with
    | .ok p => p.1
    | .error _ => s
  | .encryptAndSend sender h c k now =>
    match encryptAndSendToBank s sender h c k now with
    | .ok p => p.1
    | .error _ => s
  | .decryptAndVerify h c now =>
    match decryptAndVerifyDocument s h c now with
    | .ok p => p.1
    | .error _ => s
  | .verify sender h now =>
    match verifyDocument s sender h now with
    | .ok s2 => s2
    | .error _ => s
  | .createCase sender caseId dh ia sh now =>
    match createInheritanceCase s sender caseId dh ia sh now with
    | .ok s2 => s2
    | .error _ => s
  | .depositOp sender caseId v now =>
    match deposit s sender caseId v now with
    | .ok s2 => s2
    | .error _ => s
  | .distribute caseId now =>
    match distributeAssets s caseId now with
    | .ok s2 => s2
    | .error _ => s
  | .withdrawOp sender amount ok now =>
    match withdraw s sender amount ok now with
    | .ok s2 => s2
    | .error _ => s

/-- Apply a sequence of entry points in order. -/
def applyOps (s : ContractState) (ops : List Op) : ContractState :=
  ops.foldl applyOp s

end InheritanceAutomation

namespace SimpleInheritance

/-- Source struct `Document` of the fixed-split variant (lines 627-633). -/
structure Document where
  documentHash : Nat
  owner : Nat
  timestamp : Nat
  isVerified : Bool
  documentType : String
deriving Repr, DecidableEq

/-- The all-zero `Document`: note this variant's absence sentinel is
`documentHash == 0`, not the timestamp. -/
def Document.zero : Document := ⟨0, 0, 0, false, ""⟩

/-- Source struct `Inheritor` of the fixed-split variant (lines 635-640). -/
structure Inheritor where
  wallet : Nat
  isOverseas : Bool
  hasReceived : Bool
  receivedAmount : Nat
deriving Repr, DecidableEq

/-- The variant's events (source lines 656-660). -/
inductive Event where
  | DocumentRegistered (documentHash owner : Nat) (documentType : String) (timestamp : Nat)
  | DocumentVerified (documentHash verifier timestamp : Nat)
  | InheritanceDistributed (overseas domestic amount timestamp : Nat)
  | Deposited (sender amount timestamp : Nat)
  | Released (recipient amount timestamp : Nat)
deriving Repr, DecidableEq

/-- Source `SHARE_AMOUNT` (line 653): the constant paid to each of the
two inheritors. -/
def SHARE_AMOUNT : Nat := 5000000000

/-- Storage of the `SimpleInheritance` contract (source lines 642-654)
plus the contract's own ether balance (`address(this).balance`, read by
`_distributeInheritance`) and the append-only event log. -/
structure State where
  documents : Nat → Document
  balances : Nat → Nat
  totalDocuments : Nat
  allDocumentHashes : List Nat
  bankAddress : Nat
  overseasInheritor : Inheritor
  domesticInheritor : Inheritor
  isInheritanceDistributed : Bool
  contractBalance : Nat
  events : List Event

/-- Constructor (source lines 662-687): both inheritors start with
`hasReceived = false`, `receivedAmount = 0`; the source requires the
three addresses nonzero and the two inheritors distinct. -/
def initialState (overseas domestic bank : Nat) : State :=
  { documents := fun _ => Document.zero
    balances := fun _ => 0
    totalDocuments := 0
    allDocumentHashes := []
    bankAddress := bank
    overseasInheritor := ⟨overseas, true, false, 0⟩
    domesticInheritor := ⟨domestic, false, false, 0⟩
    isInheritanceDistributed := false
    contractBalance := 0
    events := [] }

/-- Variant `registerDocument` (source lines 694-713): absence is
`documentHash == 0`. -/
def registerDocument (s : State) (sender : Nat)
    (documentContent documentType : String) (now : Nat) :
    Except Err (State × Nat) :=
  let documentHash := keccak256 documentContent
  if (s.documents documentHash).documentHash ≠ 0 then .error .AlreadyExists
  else .ok
    ({ s with
        documents := upd s.documents documentHash
          ⟨documentHash, sender, now, false, documentType⟩
        allDocumentHashes := s.allDocumentHashes ++ [documentHash]
        totalDocuments := s.totalDocuments + 1
        events := s.events ++ [.DocumentRegistered documentHash sender documentType now] },
      documentHash)

/-- Source `_distributeInheritance` (lines 742-766): requires the flag
still unset and the contract funded with at least `10_000_000_000`;
credits `SHARE_AMOUNT` to each inheritor that has not yet received,
marks them received, sets the flag and emits.  A failing require here
propagates out of the calling `verifyDocument` and reverts it whole. -/
def distributeInheritance (s : State) (now : Nat) : Except Err State :=
  if s.isInheritanceDistributed then .error .AlreadyDistributed
  else if s.contractBalance < 10000000000 then .error .InsufficientFunds
  else
    let s1 :=
      if s.overseasInheritor.hasReceived then s
      else
        { s with
            balances := upd s.balances s.overseasInheritor.wallet
              (s.balances s.overseasInheritor.wallet + SHARE_AMOUNT)
            overseasInheritor :=
              { s.overseasInheritor with hasReceived := true, receivedAmount := SHARE_AMOUNT } }
    let s2 :=
      if s1.domesticInheritor.hasReceived then s1
      else
        { s1 with
            balances := upd s1.balances s1.domesticInheritor.wallet
              (s1.balances s1.domesticInheritor.wallet + SHARE_AMOUNT)
            domesticInheritor :=
              { s1.domesticInheritor with hasReceived := true, receivedAmount := SHARE_AMOUNT } }
    .ok
      { s2 with
          isInheritanceDistributed := true
          events := s2.events ++
            [.InheritanceDistributed s.overseasInheritor.wallet s.domesticInheritor.wallet
              SHARE_AMOUNT now] }

/-- Source `_checkAndDistributeInheritance` (lines 726-740): a no-op once
distributed; otherwise scans `allDocumentHashes` for any verified
document and, finding one, runs the distribution. -/
def checkAndDistributeInheritance (s : State) (now : Nat) : Except Err State :=
  if s.isInheritanceDistributed then .ok s
  else if s.allDocumentHashes.any (fun h => (s.documents h).isVerified) then
    distributeInheritance s now
  else .ok s

/-- Variant `verifyDocument` (source lines 715-724): here the
`onlyBank` modifier runs before the existence require; on success the
flag flips and `_checkAndDistributeInheritance` runs in the same call,
so its failures revert the verification too. -/
def verifyDocument (s : State) (sender documentHash now : Nat) :
    Except Err State :=
  if sender ≠ s.bankAddress then .error .Unauthorized
  else if (s.documents documentHash).documentHash = 0 then .error .NotFound
  else if (s.documents documentHash).isVerified then .error .AlreadyVerified
  else
    checkAndDistributeInheritance
      { s with
          documents := upd s.documents documentHash
            { s.documents documentHash with isVerified := true }
          events := s.events ++ [.DocumentVerified documentHash sender now] }
      now

/-- Variant `deposit` (source lines 768-771): payable, requires a
positive value, grows the contract's ether balance and emits; it does
NOT touch the `balances` mapping. -/
def deposit (s : State) (sender msgValue now : Nat) : Except Err State :=
  if msgValue = 0 then .error .InvalidInput
  else .ok
    { s with
        contractBalance := s.contractBalance + msgValue
        events := s.events ++ [.Deposited sender msgValue now] }

/-- Variant `withdraw` (source lines 773-789): inheritors only,
zero-then-transfer of the caller's whole balance, the transfer modelled
by the `transferSucceeds` oracle. -/
def withdraw (s : State) (sender : Nat) (transferSucceeds : Bool) (now : Nat) :
    Except Err State :=
  if sender ≠ s.overseasInheritor.wallet ∧ sender ≠ s.domesticInheritor.wallet then
    .error .Unauthorized
  else
    let amount := s.balances sender
    if amount = 0 then .error .InsufficientFunds
    else if transferSucceeds then
      .ok
        { s with
            balances := upd s.balances sender 0
            contractBalance := s.contractBalance - amount
            events := s.events ++ [.Released sender amount now] }
    else .error .TransferFailure

end SimpleInheritance

namespace InheritanceAutomation

/-- A registered, already-verified document for concrete test states;
`98 = keccak256 "a"` under the stand-in digest. -/
def verifiedDoc : Document := ⟨98, 2, 1, true, "inheritance", "", ""⟩

/-- A concrete distributable state: document 98 registered and verified,
case 1 referencing it (copy also verified) with inheritors 10 and 11 at
shares 70/30 and a pool of 1000; bank address 1. -/
def caseState : ContractState :=
  { documents := upd (fun _ => Document.zero) 98 verifiedDoc
    inheritanceCases := upd (fun _ => InheritanceCase.zero) 1
      ⟨1, [verifiedDoc], [⟨10, 70, false, 0⟩, ⟨11, 30, false, 0⟩], 1000, false, 2⟩
    userDocuments := upd (fun _ => []) 2 [98]
    balances := fun _ => 0
    totalCases := 1
    totalDocuments := 1
    allDocumentHashes := [98]
    bankAddress := 1
    events := [] }

/-- The state a successful `distributeAssets caseState 1 5` commits. -/
def caseStateDistributed : ContractState :=
  creditAll (markDistributed caseState 1) 1 5

/-- State `caseState` after the 70-share inheritor was credited 700, used to
exercise `withdraw` on a funded balance. -/
def fundedState : ContractState :=
  { caseState with balances := upd (fun _ => 0) 10 700 }

/-- The spec §8 end-to-end call order: register content "a", create case
9 referencing its hash with shares 50/50, deposit 1000, then the bank
(address 1) verifies the document in the live registry. -/
def endToEndTrace : List Op :=
  [ Op.register 2 "a" "inheritance" 1,
    Op.createCase 2 9 [keccak256 "a"] [10, 11] [50, 50] 2,
    Op.depositOp 2 9 1000 3,
    Op.verify 1 (keccak256 "a") 4 ]

/-- The state reached by `endToEndTrace` from a fresh contract. -/
def endToEndState : ContractState := applyOps (initialState 1) endToEndTrace

/-- Spec shape of a successful proportional distribution of case
`caseId` taking `s` to `s2`: every inheritor whose floor amount
`totalAmount * share / 100` is positive is marked received with exactly
that amount, each wallet's balance grows by the sum of the floor amounts
of the inheritors holding it, and the total credited never exceeds the
pool. -/
def ProportionalPayoutSpec (s s2 : ContractState) (caseId : Nat) : Prop :=
  (s2.inheritanceCases caseId).inheritors =
      (s.inheritanceCases caseId).inheritors.map (fun i =>
        if 0 < (s.inheritanceCases caseId).totalAmount * i.share / 100 then
          { i with hasReceived := true,
                   receivedAmount := (s.inheritanceCases caseId).totalAmount * i.share / 100 }
        else i)
  ∧ (∀ w, s2.balances w = s.balances w +
      (((s.inheritanceCases caseId).inheritors.filter (fun i => i.wallet == w)).map
        (fun i => (s.inheritanceCases caseId).totalAmount * i.share / 100)).sum)
  ∧ ((s.inheritanceCases caseId).inheritors.map
      (fun i => (s.inheritanceCases caseId).totalAmount * i.share / 100)).sum
      ≤ (s.inheritanceCases caseId).totalAmount

/-- Spec shape of the single-shot distribution discipline: the flag was
false before, the committed state is exactly the credit phase run on the
already-flagged state (flag set before any balance credit), the flag is
true afterwards and stays true under every sequence of contract calls,
and every later `distributeAssets` on the case fails `AlreadyDistributed`. -/
def DistributeOnceSpec (s s2 : ContractState) (caseId now : Nat) : Prop :=
  (s.inheritanceCases caseId).isDistributed = false
  ∧ s2 = creditAll (markDistributed s caseId) caseId now
  ∧ ((markDistributed s caseId).inheritanceCases caseId).isDistributed = true
  ∧ (s2.inheritanceCases caseId).isDistributed = true
  ∧ (∀ ops, ((applyOps s2 ops).inheritanceCases caseId).isDistributed = true)
  ∧ (∀ ops now2,
      distributeAssets (applyOps s2 ops) caseId now2 = .error .AlreadyDistributed)

/-- Spec shape of `createInheritanceCase`'s checks, in the source's check
order: duplicate case id, the three input-shape conditions, the share
sum, document existence; on the success path the case is created at
timestamp `now` with the zipped beneficiary list, other cases untouched;
every failure commits nothing. -/
def CreateCaseChecksSpec (s : ContractState) (sender caseId : Nat)
    (dh ia sh : List Nat) (now : Nat) : Prop :=
  ((s.inheritanceCases caseId).createdAt ≠ 0 →
      createInheritanceCase s sender caseId dh ia sh now = .error .AlreadyExists)
  ∧ ((s.inheritanceCases caseId).createdAt = 0 →
      (dh.length = 0 ∨ ia.length ≠ sh.length ∨ ia.length = 0) →
      createInheritanceCase s sender caseId dh ia sh now = .error .InvalidInput)
  ∧ ((s.inheritanceCases caseId).createdAt = 0 → dh.length ≠ 0 →
      ia.length = sh.length → ia.length ≠ 0 → sh.sum ≠ 100 →
      createInheritanceCase s sender caseId dh ia sh now = .error .InvariantViolation)
  ∧ ((s.inheritanceCases caseId).createdAt = 0 → dh.length ≠ 0 →
      ia.length = sh.length → ia.length ≠ 0 → sh.sum = 100 →
      (∃ h ∈ dh, (s.documents h).timestamp = 0) →
      createInheritanceCase s sender caseId dh ia sh now = .error .NotFound)
  ∧ ((s.inheritanceCases caseId).createdAt = 0 → dh.length ≠ 0 →
      ia.length = sh.length → ia.length ≠ 0 → sh.sum = 100 →
      (∀ h ∈ dh, (s.documents h).timestamp ≠ 0) →
      ∃ s2, createInheritanceCase s sender caseId dh ia sh now = .ok s2
        ∧ (s2.inheritanceCases caseId).createdAt = now
        ∧ (s2.inheritanceCases caseId).inheritors =
            (s.inheritanceCases caseId).inheritors ++
              List.zipWith (fun a share => (⟨a, share, false, 0⟩ : Inheritor)) ia sh
        ∧ (∀ cid2, cid2 ≠ caseId → s2.inheritanceCases cid2 = s.inheritanceCases cid2)
        ∧ s2.totalCases = s.totalCases + 1)
  ∧ (∀ e, createInheritanceCase s sender caseId dh ia sh now = .error e →
      (run s (createInheritanceCase s sender caseId dh ia sh now)).1 = s)

/-- Spec shape of `deposit`: zero value is rejected `InvalidInput`, a
missing case `NotFound`, both committing nothing; a positive deposit on
an existing case grows the case pool AND the depositor's own balance
ledger entry by the same amount, touching nothing else. -/
def DepositSpec (s : ContractState) (sender caseId msgValue now : Nat) : Prop :=
  (msgValue = 0 →
      deposit s sender caseId msgValue now = .error .InvalidInput
      ∧ (run s (deposit s sender caseId msgValue now)).1 = s)
  ∧ (msgValue ≠ 0 → (s.inheritanceCases caseId).createdAt = 0 →
      deposit s sender caseId msgValue now = .error .NotFound
      ∧ (run s (deposit s sender caseId msgValue now)).1 = s)
  ∧ (msgValue ≠ 0 → (s.inheritanceCases caseId).createdAt ≠ 0 →
      ∃ s2, deposit s sender caseId msgValue now = .ok s2
        ∧ (s2.inheritanceCases caseId).totalAmount
            = (s.inheritanceCases caseId).totalAmount + msgValue
        ∧ s2.balances sender = s.balances sender + msgValue
        ∧ (∀ cid2, cid2 ≠ caseId → s2.inheritanceCases cid2 = s.inheritanceCases cid2)
        ∧ (∀ a, a ≠ sender → s2.balances a = s.balances a)
        ∧ s2.documents = s.documents)

/-- Spec shape of `withdraw`: overdrawing fails `InsufficientFunds` with
every balance intact; with a sufficient balance the external transfer
observes the already-debited state (`withdrawTransferView`), a failed
transfer rolls the whole call — debit included — back atomically with
`TransferFailure`, and a successful transfer commits exactly the debited
balances. -/
def WithdrawSpec (s : ContractState) (sender amount : Nat)
    (transferSucceeds : Bool) (now : Nat) : Prop :=
  (s.balances sender < amount →
      withdraw s sender amount transferSucceeds now = .error .InsufficientFunds
      ∧ (run s (withdraw s sender amount transferSucceeds now)).1 = s)
  ∧ (amount ≤ s.balances sender →
      ∃ t, withdrawTransferView s sender amount = some t
        ∧ t.balances sender + amount = s.balances sender
        ∧ (∀ a, a ≠ sender → t.balances a = s.balances a)
        ∧ (transferSucceeds = false →
            withdraw s sender amount transferSucceeds now = .error .TransferFailure
            ∧ (run s (withdraw s sender amount transferSucceeds now)).1 = s)
        ∧ (transferSucceeds = true →
            ∃ s2, withdraw s sender amount transferSucceeds now = .ok s2
              ∧ s2.balances = t.balances))

/-- Spec shape of `verifyDocument`'s guards as the source orders them:
for an existing document any non-bank caller gets `Unauthorized`
(whatever the verified flag), while an absent hash gets `NotFound` first,
for every caller — the `documentExists` modifier runs before `onlyBank`. -/
def VerifyAuthSpec (s : ContractState) (sender documentHash now : Nat) : Prop :=
  ((s.documents documentHash).timestamp ≠ 0 → sender ≠ s.bankAddress →
      verifyDocument s sender documentHash now = .error .Unauthorized)
  ∧ ((s.documents documentHash).timestamp = 0 →
      verifyDocument s sender documentHash now = .error .NotFound)

end InheritanceAutomation

namespace SimpleInheritance

/-- A concrete fixed-split state: bank 1, overseas inheritor 2, domestic
inheritor 3, document 7 registered but unverified, pool exactly at the
`10_000_000_000` threshold. -/
def simpleBase : State :=
  { documents := upd (fun _ => Document.zero) 7 ⟨7, 2, 1, false, "inheritance"⟩
    balances := fun _ => 0
    totalDocuments := 1
    allDocumentHashes := [7]
    bankAddress := 1
    overseasInheritor := ⟨2, true, false, 0⟩
    domesticInheritor := ⟨3, false, false, 0⟩
    isInheritanceDistributed := false
    contractBalance := 10000000000
    events := [] }

/-- State `simpleBase` with the pool one unit short of the threshold. -/
def simpleUnderfunded : State :=
  { simpleBase with contractBalance := 9999999999 }

/-- The state after the bank-called `verifyDocument`'s own mutation — the
document's flag flipped and the event appended — which is then handed to
`_checkAndDistributeInheritance` within the same call. -/
def verifiedState (s : State) (documentHash now : Nat) : State :=
  { s with
      documents := upd s.documents documentHash
        { s.documents documentHash with isVerified := true }
      events := s.events ++ [.DocumentVerified documentHash s.bankAddress now] }

/-- Spec shape of the fixed-split auto-distribution: the constant is
5,000,000,000; the bank's verification of the (registered, unverified)
document succeeds and in the same call credits exactly `SHARE_AMOUNT` to
each of the two inheritors, marking both received and the distribution
done; and once distributed, every later successful verification leaves
every balance unchanged and the flag set. -/
def FixedSplitAutoDistributeSpec (s : State) (documentHash now : Nat) : Prop :=
  SHARE_AMOUNT = 5000000000
  ∧ (∃ s2, verifyDocument s s.bankAddress documentHash now = .ok s2
      ∧ s2.balances s.overseasInheritor.wallet
          = s.balances s.overseasInheritor.wallet + SHARE_AMOUNT
      ∧ s2.balances s.domesticInheritor.wallet
          = s.balances s.domesticInheritor.wallet + SHARE_AMOUNT
      ∧ s2.overseasInheritor.hasReceived = true
      ∧ s2.overseasInheritor.receivedAmount = SHARE_AMOUNT
      ∧ s2.domesticInheritor.hasReceived = true
      ∧ s2.domesticInheritor.receivedAmount = SHARE_AMOUNT
      ∧ s2.isInheritanceDistributed = true)
  ∧ (∀ t t2 : State, ∀ sender h2 n2 : Nat,
      t.isInheritanceDistributed = true →
      verifyDocument t sender h2 n2 = .ok t2 →
      t2.balances = t.balances ∧ t2.isInheritanceDistributed = true)

end SimpleInheritance

/-! ## Helper lemmas -/

@[simp] theorem upd_same {β : Type} (m : Nat → β) (k : Nat) (v : β) :
    upd m k v k = v := by
  simp [upd]

theorem upd_ne {β : Type} (m : Nat → β) (k k2 : Nat) (v : β) (h : k2 ≠ k) :
    upd m k v k2 = m k2 := by
  simp [upd, h]

namespace InheritanceAutomation

theorem creditLoop_inheritors (caseId T : Nat) (inhs : List Inheritor)
    (b : Nat → Nat) (e : List Event) (now : Nat) :
    (creditLoop caseId T inhs b e now).1 =
      inhs.map (fun i =>
        if 0 < T * i.share / 100 then
          { i with hasReceived := true, receivedAmount := T * i.share / 100 }
        else i) := by
  induction inhs generalizing b e with
  | nil => rfl
  | cons inh rest ih =>
    by_cases h : 0 < T * inh.share / 100 <;> simp [creditLoop, h, ih]

theorem creditLoop_balances (caseId T : Nat) (inhs : List Inheritor)
    (b : Nat → Nat) (e : List Event) (now w : Nat) :
    (creditLoop caseId T inhs b e now).2.1 w =
      b w + ((inhs.filter (fun i => i.wallet == w)).map
        (fun i => T * i.share / 100)).sum := by
  induction inhs generalizing b e with
  | nil => simp [creditLoop]
  | cons inh rest ih =>
    by_cases h : 0 < T * inh.share / 100 <;> by_cases hw : inh.wallet = w <;>
      simp [creditLoop, h, ih, hw, upd, List.filter_cons] <;> omega

theorem sum_map_div_le (T : Nat) (shares : List Nat) :
    (shares.map (fun sh => T * sh / 100)).sum ≤ T * shares.sum / 100 := by
  induction shares with
  | nil => simp
  | cons a l ih =>
    simp only [List.map_cons, List.sum_cons, Nat.mul_add]
    calc T * a / 100 + (l.map (fun sh => T * sh / 100)).sum
        ≤ T * a / 100 + T * l.sum / 100 := by omega
      _ ≤ (T * a + T * l.sum) / 100 := Nat.add_div_le_add_div _ _ _

theorem sum_map_div_le_total (T : Nat) (shares : List Nat) (hsum : shares.sum = 100) :
    (shares.map (fun sh => T * sh / 100)).sum ≤ T := by
  have h := sum_map_div_le T shares
  rw [hsum] at h
  calc (shares.map (fun sh => T * sh / 100)).sum ≤ T * 100 / 100 := h
    _ = T := Nat.mul_div_cancel T (by norm_num)

theorem distributeAssets_ok_iff (s : ContractState) (caseId now : Nat) (s2 : ContractState) :
    distributeAssets s caseId now = .ok s2 ↔
      ((s.inheritanceCases caseId).createdAt ≠ 0
       ∧ (s.inheritanceCases caseId).isDistributed = false
       ∧ (s.inheritanceCases caseId).totalAmount ≠ 0
       ∧ ((s.inheritanceCases caseId).documents.all fun d => d.isVerified) = true
       ∧ s2 = creditAll (markDistributed s caseId) caseId now) := by
  unfold distributeAssets
  by_cases h1 : (s.inheritanceCases caseId).createdAt = 0
  · simp [h1]
  · by_cases h2 : (s.inheritanceCases caseId).isDistributed
    · simp [h1, h2]
    · by_cases h3 : (s.inheritanceCases caseId).totalAmount = 0
      · simp [h1, h2, h3]
      · by_cases h4 : ((s.inheritanceCases caseId).documents.all fun d => d.isVerified) = true
        · simp [h1, h2, h3, h4, eq_comm]
        · simp [h1, h2, h3, h4]

theorem markDistributed_self (s : ContractState) (caseId : Nat) :
    (markDistributed s caseId).inheritanceCases caseId
      = { s.inheritanceCases caseId with isDistributed := true } := by
  simp [markDistributed]

theorem markDistributed_other (s : ContractState) (caseId cid2 : Nat) (h : cid2 ≠ caseId) :
    (markDistributed s caseId).inheritanceCases cid2 = s.inheritanceCases cid2 := by
  simp [markDistributed, upd, h]

theorem creditAll_case (s : ContractState) (caseId now : Nat) :
    (creditAll s caseId now).inheritanceCases caseId
      = { s.inheritanceCases caseId with
          inheritors := (creditLoop caseId (s.inheritanceCases caseId).totalAmount
            (s.inheritanceCases caseId).inheritors s.balances s.events now).1 } := by
  simp [creditAll]

theorem creditAll_other (s : ContractState) (caseId now cid2 : Nat) (h : cid2 ≠ caseId) :
    (creditAll s caseId now).inheritanceCases cid2 = s.inheritanceCases cid2 := by
  simp [creditAll, upd, h]

theorem creditAll_balances (s : ContractState) (caseId now : Nat) :
    (creditAll s caseId now).balances
      = (creditLoop caseId (s.inheritanceCases caseId).totalAmount
          (s.inheritanceCases caseId).inheritors s.balances s.events now).2.1 := by
  simp [creditAll]

theorem registerDocument_cases (s : ContractState) (sender : Nat)
    (c t : String) (now : Nat) (p : ContractState × Nat)
    (hok : registerDocument s sender c t now = .ok p) :
    p.1.inheritanceCases = s.inheritanceCases := by
  unfold registerDocument at hok
  simp only [] at hok
  split at hok
  · exact Except.noConfusion hok
  · injection hok with h2
    subst h2
    rfl

theorem encryptAndSendToBank_cases (s : ContractState) (sender documentHash : Nat)
    (c k : String) (now : Nat) (p : ContractState × String)
    (hok : encryptAndSendToBank s sender documentHash c k now = .ok p) :
    p.1.inheritanceCases = s.inheritanceCases := by
  unfold encryptAndSendToBank at hok
  simp only [] at hok
  repeat' split at hok
  any_goals exact Except.noConfusion hok
  injection hok with h2
  subst h2
  rfl

theorem decryptAndVerifyDocument_cases (s : ContractState) (documentHash : Nat)
    (c : String) (now : Nat) (p : ContractState × Bool)
    (hok : decryptAndVerifyDocument s documentHash c now = .ok p) :
    p.1.inheritanceCases = s.inheritanceCases := by
  unfold decryptAndVerifyDocument at hok
  injection hok with h2
  subst h2
  rfl

theorem verifyDocument_cases (s : ContractState) (sender documentHash now : Nat)
    (s2 : ContractState) (hok : verifyDocument s sender documentHash now = .ok s2) :
    s2.inheritanceCases = s.inheritanceCases := by
  unfold verifyDocument at hok
  repeat' split at hok
  any_goals exact Except.noConfusion hok
  injection hok with h2
  subst h2
  rfl

theorem withdrawTransferView_some (s : ContractState) (sender amount : Nat)
    (t : ContractState) (hv : withdrawTransferView s sender amount = some t) :
    t.inheritanceCases = s.inheritanceCases := by
  unfold withdrawTransferView at hv
  split at hv
  · exact Option.noConfusion hv
  · injection hv with h2
    subst h2
    rfl

theorem withdraw_cases (s : ContractState) (sender amount : Nat) (ok : Bool)
    (now : Nat) (s2 : ContractState) (hok : withdraw s sender amount ok now = .ok s2) :
    s2.inheritanceCases = s.inheritanceCases := by
  unfold withdraw at hok
  cases hv : withdrawTransferView s sender amount with
  | none => rw [hv] at hok; exact Except.noConfusion hok
  | some t =>
    rw [hv] at hok
    cases ok with
    | false => simp at hok
    | true =>
      simp at hok
      subst hok
      exact withdrawTransferView_some s sender amount t hv

theorem createInheritanceCase_existing (s : ContractState) (sender caseId : Nat)
    (dh ia sh : List Nat) (now : Nat)
    (hcr : (s.inheritanceCases caseId).createdAt ≠ 0) :
    createInheritanceCase s sender caseId dh ia sh now = .error .AlreadyExists := by
  unfold createInheritanceCase
  rw [if_pos hcr]

theorem createInheritanceCase_cases_other (s : ContractState) (sender caseId : Nat)
    (dh ia sh : List Nat) (now : Nat) (cid : Nat) (h : cid ≠ caseId)
    (s2 : ContractState) (hok : createInheritanceCase s sender caseId dh ia sh now = .ok s2) :
    s2.inheritanceCases cid = s.inheritanceCases cid := by
  unfold createInheritanceCase at hok
  repeat' split at hok
  any_goals exact Except.noConfusion hok
  injection hok with h2
  subst h2
  simp [upd, h]

theorem deposit_cases_meta (s : ContractState) (sender caseId msgValue now : Nat)
    (s2 : ContractState) (hok : deposit s sender caseId msgValue now = .ok s2) (cid : Nat) :
    (s2.inheritanceCases cid).isDistributed = (s.inheritanceCases cid).isDistributed
    ∧ (s2.inheritanceCases cid).createdAt = (s.inheritanceCases cid).createdAt := by
  unfold deposit at hok
  repeat' split at hok
  any_goals exact Except.noConfusion hok
  injection hok with h2
  subst h2
  by_cases hc : cid = caseId
  · subst hc
    simp
  · simp [upd, hc]

theorem distributeAssets_cases_meta (s : ContractState) (caseId now : Nat)
    (s2 : ContractState) (hok : distributeAssets s caseId now = .ok s2) (cid : Nat) :
    ((s2.inheritanceCases cid).isDistributed = (s.inheritanceCases cid).isDistributed
      ∨ (s2.inheritanceCases cid).isDistributed = true)
    ∧ (s2.inheritanceCases cid).createdAt = (s.inheritanceCases cid).createdAt := by
  obtain ⟨h1, h2, h3, h4, hs2⟩ := (distributeAssets_ok_iff s caseId now s2).1 hok
  subst hs2
  by_cases hc : cid = caseId
  · subst hc
    rw [creditAll_case, markDistributed_self]
    exact ⟨Or.inr rfl, rfl⟩
  · rw [creditAll_other _ _ _ _ hc, markDistributed_other _ _ _ hc]
    exact ⟨Or.inl rfl, rfl⟩

/-- Every entry point preserves a case's distributed flag once set, and
never changes the creation timestamp of an existing case. -/
theorem applyOp_preserves_case (s : ContractState) (op : Op) (cid : Nat)
    (hflag : (s.inheritanceCases cid).isDistributed = true)
    (hcr : (s.inheritanceCases cid).createdAt ≠ 0) :
    ((applyOp s op).inheritanceCases cid).isDistributed = true
    ∧ ((applyOp s op).inheritanceCases cid).createdAt = (s.inheritanceCases cid).createdAt := by
  cases op with
  | register sender c t now =>
    simp only [applyOp]
    cases hres : registerDocument s sender c t now with
    | ok p => rw [registerDocument_cases s sender c t now p hres]; exact ⟨hflag, rfl⟩
    | error e => exact ⟨hflag, rfl⟩
  | encryptAndSend sender h c k now =>
    simp only [applyOp]
    cases hres : encryptAndSendToBank s sender h c k now with
    | ok p => rw [encryptAndSendToBank_cases s sender h c k now p hres]; exact ⟨hflag, rfl⟩
    | error e => exact ⟨hflag, rfl⟩
  | decryptAndVerify h c now =>
    simp only [applyOp]
    cases hres : decryptAndVerifyDocument s h c now with
    | ok p => rw [decryptAndVerifyDocument_cases s h c now p hres]; exact ⟨hflag, rfl⟩
    | error e => exact ⟨hflag, rfl⟩
  | verify sender h now =>
    simp only [applyOp]
    cases hres : verifyDocument s sender h now with
    | ok s2 => rw [verifyDocument_cases s sender h now s2 hres]; exact ⟨hflag, rfl⟩
    | error e => exact ⟨hflag, rfl⟩
  | createCase sender caseId dh ia sh now =>
    simp only [applyOp]
    by_cases hc : cid = caseId
    · subst hc
      rw [createInheritanceCase_existing s sender cid dh ia sh now hcr]
      exact ⟨hflag, rfl⟩
    · cases hres : createInheritanceCase s sender caseId dh ia sh now with
      | ok s2 =>
        rw [createInheritanceCase_cases_other s sender caseId dh ia sh now cid hc s2 hres]
        exact ⟨hflag, rfl⟩
      | error e => exact ⟨hflag, rfl⟩
  | depositOp sender caseId v now =>
    simp only [applyOp]
    cases hres : deposit s sender caseId v now with
    | ok s2 =>
      obtain ⟨hm1, hm2⟩ := deposit_cases_meta s sender caseId v now s2 hres cid
      exact ⟨by rw [hm1]; exact hflag, hm2⟩
    | error e => exact ⟨hflag, rfl⟩
  | distribute caseId now =>
    simp only [applyOp]
    cases hres : distributeAssets s caseId now with
    | ok s2 =>
      obtain ⟨hm1, hm2⟩ := distributeAssets_cases_meta s caseId now s2 hres cid
      refine ⟨?_, hm2⟩
      cases hm1 with
      | inl h => rw [h]; exact hflag
      | inr h => exact h
    | error e => exact ⟨hflag, rfl⟩
  | withdrawOp sender amount ok now =>
    simp only [applyOp]
    cases hres : withdraw s sender amount ok now with
    | ok s2 => rw [withdraw_cases s sender amount ok now s2 hres]; exact ⟨hflag, rfl⟩
    | error e => exact ⟨hflag, rfl⟩

/-- Trace version of `applyOp_preserves_case`. -/
theorem applyOps_preserves_case (ops : List Op) (s : ContractState) (cid : Nat)
    (hflag : (s.inheritanceCases cid).isDistributed = true)
    (hcr : (s.inheritanceCases cid).createdAt ≠ 0) :
    ((applyOps s ops).inheritanceCases cid).isDistributed = true
    ∧ ((applyOps s ops).inheritanceCases cid).createdAt ≠ 0 := by
  induction ops generalizing s with
  | nil => exact ⟨hflag, hcr⟩
  | cons op rest ih =>
    obtain ⟨h1, h2⟩ := applyOp_preserves_case s op cid hflag hcr
    exact ih (applyOp s op) h1 (by rw [h2]; exact hcr)

/-! ## Claim theorems, main contract -/

/-- C2: for a case whose stored shares sum to 100, a successful
`distributeAssets` marks every inheritor whose floor amount
`totalAmount * share / 100` is positive as received with exactly that
amount, credits each wallet by the sum of the floor amounts of the
inheritors holding it, and the total credited never exceeds the pool. -/
theorem distributeAssets_proportional_payout (s s2 : ContractState) (caseId now : Nat)
    (hshares : ((s.inheritanceCases caseId).inheritors.map (fun i => i.share)).sum = 100)
    (hok : distributeAssets s caseId now = .ok s2) :
    ProportionalPayoutSpec s s2 caseId := by
  obtain ⟨h1, h2, h3, h4, hs2⟩ := (distributeAssets_ok_iff s caseId now s2).1 hok
  subst hs2
  unfold ProportionalPayoutSpec
  refine ⟨?_, ?_, ?_⟩
  · simp [creditAll_case, markDistributed_self, markDistributed, creditLoop_inheritors]
  · intro w
    simp [creditAll_balances, markDistributed_self, markDistributed, creditLoop_balances]
  · have h := sum_map_div_le_total (s.inheritanceCases caseId).totalAmount
      ((s.inheritanceCases caseId).inheritors.map (fun i => i.share)) hshares
    simpa [List.map_map, Function.comp] using h

/-- Witness for C2: distributing `caseState` (pool 1000, shares 70/30)
credits exactly 700 and 300. -/
theorem distributeAssets_proportional_payout_witness :
    ((caseState.inheritanceCases 1).inheritors.map (fun i => i.share)).sum = 100
    ∧ distributeAssets caseState 1 5 = .ok caseStateDistributed
    ∧ caseStateDistributed.balances 10 = 700
    ∧ caseStateDistributed.balances 11 = 300
    ∧ ProportionalPayoutSpec caseState caseStateDistributed 1 :=
  ⟨by decide, rfl, by decide, by decide,
    distributeAssets_proportional_payout caseState caseStateDistributed 1 5 (by decide) rfl⟩

/-- C3: a successful distribution required the flag to be false, committed
exactly the credit phase run on the already-flagged state (the flag flips
before any balance is credited), leaves the flag true permanently under
every further sequence of contract calls, and every later
`distributeAssets` on the case fails `AlreadyDistributed`. -/
theorem distributeAssets_single_shot (s s2 : ContractState) (caseId now : Nat)
    (hok : distributeAssets s caseId now = .ok s2) :
    DistributeOnceSpec s s2 caseId now := by
  obtain ⟨h1, h2, h3, h4, hs2⟩ := (distributeAssets_ok_iff s caseId now s2).1 hok
  have hflag : (s2.inheritanceCases caseId).isDistributed = true := by
    subst hs2
    simp [creditAll_case, markDistributed_self]
  have hcr2 : (s2.inheritanceCases caseId).createdAt ≠ 0 := by
    subst hs2
    simpa [creditAll_case, markDistributed_self] using h1
  unfold DistributeOnceSpec
  refine ⟨h2, hs2, by simp [markDistributed_self], hflag, ?_, ?_⟩
  · intro ops
    exact (applyOps_preserves_case ops s2 caseId hflag hcr2).1
  · intro ops now2
    obtain ⟨hf, hc⟩ := applyOps_preserves_case ops s2 caseId hflag hcr2
    unfold distributeAssets
    rw [if_neg hc, if_pos hf]

/-- Witness for C3 at `caseState`. -/
theorem distributeAssets_single_shot_witness :
    distributeAssets caseState 1 5 = .ok caseStateDistributed
    ∧ DistributeOnceSpec caseState caseStateDistributed 1 5 :=
  ⟨rfl, distributeAssets_single_shot caseState caseStateDistributed 1 5 rfl⟩

/-- C7: `createInheritanceCase` rejects duplicate case ids with
`AlreadyExists`, empty or mismatched inputs with `InvalidInput`, a share
sum other than 100 with `InvariantViolation`, an unregistered document
with `NotFound` (in the source's check order), succeeds otherwise, and a
failure commits nothing. -/
theorem createInheritanceCase_checks (s : ContractState) (sender caseId : Nat)
    (dh ia sh : List Nat) (now : Nat) :
    CreateCaseChecksSpec s sender caseId dh ia sh now := by
  unfold CreateCaseChecksSpec
  refine ⟨?_, ?_, ?_, ?_, ?_, ?_⟩
  · intro hcr
    exact createInheritanceCase_existing s sender caseId dh ia sh now hcr
  · intro hcr hbad
    unfold createInheritanceCase
    rw [if_neg (by simp [hcr])]
    by_cases hd : dh.length = 0
    · rw [if_pos hd]
    · rw [if_neg hd]
      by_cases hl : ia.length ≠ sh.length
      · rw [if_pos hl]
      · rw [if_neg hl]
        have hia : ia.length = 0 := by
          rcases hbad with h | h | h
          exacts [absurd h hd, absurd h hl, h]
        rw [if_pos hia]
  · intro hcr hd hl hia hsum
    unfold createInheritanceCase
    rw [if_neg (by simp [hcr]), if_neg hd, if_neg (by simp [hl]), if_neg hia, if_pos hsum]
  · intro hcr hd hl hia hsum hex
    have hany : (dh.any fun h => decide ((s.documents h).timestamp = 0)) = true := by
      simp only [List.any_eq_true, decide_eq_true_eq]
      exact hex
    unfold createInheritanceCase
    rw [if_neg (by simp [hcr]), if_neg hd, if_neg (by simp [hl]), if_neg hia,
      if_neg (by simp [hsum]), if_pos hany]
  · intro hcr hd hl hia hsum hall
    have hnone : ¬ (dh.any fun h => decide ((s.documents h).timestamp = 0)) = true := by
      simp only [List.any_eq_true, decide_eq_true_eq, not_exists]
      intro x hx
      exact hall x hx.1 hx.2
    have hok : createInheritanceCase s sender caseId dh ia sh now = .ok
        { s with
            inheritanceCases := upd s.inheritanceCases caseId
              { caseId := caseId
                documents := (s.inheritanceCases caseId).documents
                  ++ dh.map (fun h => s.documents h)
                inheritors := (s.inheritanceCases caseId).inheritors
                  ++ List.zipWith (fun a share => ⟨a, share, false, 0⟩) ia sh
                totalAmount := (s.inheritanceCases caseId).totalAmount
                isDistributed := (s.inheritanceCases caseId).isDistributed
                createdAt := now }
            totalCases := s.totalCases + 1
            events := s.events ++ [.InheritanceCaseCreated caseId sender now] } := by
      unfold createInheritanceCase
      rw [if_neg (by simp [hcr]), if_neg hd, if_neg (by simp [hl]), if_neg hia,
        if_neg (by simp [hsum]), if_neg hnone]
    refine ⟨_, hok, by simp [upd], by simp [upd], ?_, rfl⟩
    intro cid2 hne
    simp [upd, hne]
  · intro e he
    rw [he]
    rfl

/-- Witness for C7: on `caseState`, shares `[60, 40]` over the registered
document 98 create case 2, while `[60, 30]` are rejected with
`InvariantViolation`. -/
theorem createInheritanceCase_checks_witness :
    CreateCaseChecksSpec caseState 2 2 [98] [10, 11] [60, 40] 7
    ∧ createInheritanceCase caseState 2 2 [98] [10, 11] [60, 30] 7
        = .error .InvariantViolation :=
  ⟨createInheritanceCase_checks caseState 2 2 [98] [10, 11] [60, 40] 7,
    (createInheritanceCase_checks caseState 2 2 [98] [10, 11] [60, 30] 7).2.2.1
      (by decide) (by decide) (by decide) (by decide) (by decide)⟩

/-- C8: `deposit` rejects a zero value with `InvalidInput` and an absent
case with `NotFound`, committing nothing; a positive deposit on an
existing case grows the case pool and the depositor's own balance ledger
entry by the same amount — the source's dual bookkeeping — touching no
other case, balance, or document. -/
theorem deposit_dual_bookkeeping (s : ContractState) (sender caseId msgValue now : Nat) :
    DepositSpec s sender caseId msgValue now := by
  unfold DepositSpec
  refine ⟨?_, ?_, ?_⟩
  · intro h0
    have hd : deposit s sender caseId msgValue now = .error .InvalidInput := by
      unfold deposit
      rw [if_pos h0]
    exact ⟨hd, by rw [hd]; rfl⟩
  · intro h0 habs
    have hd : deposit s sender caseId msgValue now = .error .NotFound := by
      unfold deposit
      rw [if_neg h0, if_pos habs]
    exact ⟨hd, by rw [hd]; rfl⟩
  · intro h0 hex
    have hd : deposit s sender caseId msgValue now = .ok
        { s with
            inheritanceCases := upd s.inheritanceCases caseId
              { s.inheritanceCases caseId with
                  totalAmount := (s.inheritanceCases caseId).totalAmount + msgValue }
            balances := upd s.balances sender (s.balances sender + msgValue)
            events := s.events ++ [.Deposited sender msgValue now] } := by
      unfold deposit
      rw [if_neg h0, if_neg hex]
    refine ⟨_, hd, by simp [upd], by simp [upd], ?_, ?_, rfl⟩
    · intro cid2 hne
      simp [upd, hne]
    · intro a ha
      simp [upd, ha]

/-- Witness for C8 at `caseState`. -/
theorem deposit_dual_bookkeeping_witness :
    DepositSpec caseState 4 1 500 6 :=
  deposit_dual_bookkeeping caseState 4 1 500 6

/-- C6: `withdraw` with more than the caller's balance fails
`InsufficientFunds` leaving every balance intact; otherwise the external
transfer observes the already-debited state, a failing transfer rolls the
whole call — debit included — back atomically with `TransferFailure`, and
a successful transfer commits exactly the debited balances. -/
theorem withdraw_atomic (s : ContractState) (sender amount : Nat)
    (transferSucceeds : Bool) (now : Nat) :
    WithdrawSpec s sender amount transferSucceeds now := by
  unfold WithdrawSpec
  refine ⟨?_, ?_⟩
  · intro hlt
    have hv : withdrawTransferView s sender amount = none := by
      unfold withdrawTransferView
      rw [if_pos hlt]
    have hw : withdraw s sender amount transferSucceeds now = .error .InsufficientFunds := by
      unfold withdraw
      rw [hv]
    exact ⟨hw, by rw [hw]; rfl⟩
  · intro hge
    have hnlt : ¬ s.balances sender < amount := by omega
    have hv : withdrawTransferView s sender amount
        = some { s with balances := upd s.balances sender (s.balances sender - amount) } := by
      unfold withdrawTransferView
      rw [if_neg hnlt]
    refine ⟨_, hv, ?_, ?_, ?_, ?_⟩
    · simp only [upd_same]
      omega
    · intro a ha
      simp [upd, ha]
    · intro hf
      have hw : withdraw s sender amount transferSucceeds now = .error .TransferFailure := by
        unfold withdraw
        rw [hv, hf]
        rfl
      exact ⟨hw, by rw [hw]; rfl⟩
    · intro ht
      refine ⟨{ s with
          balances := upd s.balances sender (s.balances sender - amount)
          events := s.events ++ [Event.Released sender amount now] }, ?_, rfl⟩
      unfold withdraw
      rw [hv, ht]
      rfl

/-- Witness for C6 at `fundedState` (balance 700 at address 10). -/
theorem withdraw_atomic_witness :
    WithdrawSpec fundedState 10 700 true 8
    ∧ withdraw fundedState 10 800 true 8 = .error .InsufficientFunds
    ∧ withdraw fundedState 10 700 false 8 = .error .TransferFailure :=
  ⟨withdraw_atomic fundedState 10 700 true 8,
    ((withdraw_atomic fundedState 10 800 true 8).1 (by decide)).1,
    (((withdraw_atomic fundedState 10 700 false 8).2 (by decide)).choose_spec.2.2.2.1 rfl).1⟩

/-- C5 counterexample: in the fresh contract state, caller 99 is not the
bank and hash 5 is unregistered, yet `verifyDocument` reverts `NotFound`
— the `documentExists` modifier runs before `onlyBank` — and not
`Unauthorized` as the claim asserts for absent documents. -/
theorem verifyDocument_absent_nonbank_notfound :
    99 ≠ (initialState 1).bankAddress
    ∧ ((initialState 1).documents 5).timestamp = 0
    ∧ verifyDocument (initialState 1) 99 5 3 = .error .NotFound
    ∧ verifyDocument (initialState 1) 99 5 3 ≠ .error .Unauthorized := by
  refine ⟨by decide, by decide, rfl, ?_⟩
  intro hcontra
  rw [show verifyDocument (initialState 1) 99 5 3 = .error .NotFound from rfl] at hcontra
  exact Err.noConfusion (Except.error.inj hcontra)

/-- C5 amended: a non-bank caller gets `Unauthorized` whenever the
document exists, whatever its verified flag; an absent hash reverts
`NotFound` first, for every caller. -/
theorem verifyDocument_auth_order (s : ContractState) (sender documentHash now : Nat) :
    VerifyAuthSpec s sender documentHash now := by
  unfold VerifyAuthSpec
  constructor
  · intro hex hnb
    unfold verifyDocument
    rw [if_neg hex, if_pos hnb]
  · intro habs
    unfold verifyDocument
    rw [if_pos habs]

/-- Witness for the amended C5 at `caseState`: non-bank caller 99 on the
existing document 98 gets `Unauthorized`; on the absent hash 5, `NotFound`. -/
theorem verifyDocument_auth_order_witness :
    ((caseState.documents 98).timestamp ≠ 0 ∧ 99 ≠ caseState.bankAddress
      ∧ verifyDocument caseState 99 98 3 = .error .Unauthorized)
    ∧ ((caseState.documents 5).timestamp = 0
      ∧ verifyDocument caseState 99 5 3 = .error .NotFound) :=
  ⟨⟨by decide, by decide,
      (verifyDocument_auth_order caseState 99 98 3).1 (by decide) (by decide)⟩,
    ⟨by decide, (verifyDocument_auth_order caseState 99 5 3).2 (by decide)⟩⟩

/-- C9: `decryptAndVerifyDocument` returns `true` for every hash and
every decrypted content, mutating nothing but the event log — in
particular no document's verified flag — and `verifyDocumentHash` is
constantly `true`: neither operation verifies anything. -/
theorem decrypt_and_hash_checks_vacuous (s : ContractState) (documentHash : Nat)
    (decryptedContent : String) (now : Nat) :
    ∃ s2, decryptAndVerifyDocument s documentHash decryptedContent now = .ok (s2, true)
      ∧ s2.documents = s.documents
      ∧ s2.inheritanceCases = s.inheritanceCases
      ∧ s2.balances = s.balances
      ∧ s2.userDocuments = s.userDocuments
      ∧ s2.totalCases = s.totalCases
      ∧ s2.totalDocuments = s.totalDocuments
      ∧ s2.allDocumentHashes = s.allDocumentHashes
      ∧ s2.bankAddress = s.bankAddress
      ∧ (∀ h2, (s2.documents h2).isVerified = (s.documents h2).isVerified)
      ∧ (∀ content2, verifyDocumentHash s documentHash content2 = true) :=
  ⟨_, rfl, rfl, rfl, rfl, rfl, rfl, rfl, rfl, rfl, fun _ => rfl, fun _ => rfl⟩

/-- C1 (code bug): after the spec §8 call order — register "a", create
case 9 referencing its hash, deposit 1000, bank verifies the document —
every hash referenced by the case is verified in the live registry and
the case is an existing, funded, undistributed case, yet
`distributeAssets` reverts `NotAllVerified`: line 478 of the source reads
the `isVerified` flags of the document copies snapshotted at creation
(line 439), not the live registry the spec mandates re-reading. -/
theorem distributeAssets_reads_stale_snapshot :
    (endToEndState.documents (keccak256 "a")).isVerified = true
    ∧ (∀ d ∈ (endToEndState.inheritanceCases 9).documents,
        (endToEndState.documents d.documentHash).isVerified = true)
    ∧ (endToEndState.inheritanceCases 9).documents ≠ []
    ∧ (endToEndState.inheritanceCases 9).createdAt ≠ 0
    ∧ (endToEndState.inheritanceCases 9).totalAmount = 1000
    ∧ (endToEndState.inheritanceCases 9).isDistributed = false
    ∧ distributeAssets endToEndState 9 5 = .error .NotAllVerified :=
  ⟨by decide, by decide, by decide, by decide, by decide, by decide, rfl⟩

end InheritanceAutomation

/-! ## Claim theorems, fixed-split variant -/

namespace SimpleInheritance

/-- A bank-called verification of an existing, unverified document passes
all three guards and hands the flag-flipped state to
`_checkAndDistributeInheritance`. -/
theorem verifyDocument_bank_unverified (s : State) (documentHash now : Nat)
    (hex : (s.documents documentHash).documentHash ≠ 0)
    (hnv : (s.documents documentHash).isVerified = false) :
    verifyDocument s s.bankAddress documentHash now =
      checkAndDistributeInheritance (verifiedState s documentHash now) now := by
  unfold verifyDocument verifiedState
  rw [if_neg (by simp), if_neg hex, if_neg (by simp [hnv])]

/-- With the distribution still pending and some listed document
verified, the check phase runs the distribution. -/
theorem checkAndDistribute_fires (s1 : State) (now : Nat)
    (hnd : s1.isInheritanceDistributed = false)
    (hver : ∃ h ∈ s1.allDocumentHashes, (s1.documents h).isVerified = true) :
    checkAndDistributeInheritance s1 now = distributeInheritance s1 now := by
  unfold checkAndDistributeInheritance
  rw [if_neg (by simp [hnd]), if_pos (by simpa [List.any_eq_true] using hver)]

/-- On a funded, undistributed state where neither inheritor has
received, `_distributeInheritance` credits `SHARE_AMOUNT` to each wallet,
marks both received, and sets the flag. -/
theorem distributeInheritance_fresh (s1 : State) (now : Nat)
    (hnd : s1.isInheritanceDistributed = false)
    (hbal : 10000000000 ≤ s1.contractBalance)
    (hor : s1.overseasInheritor.hasReceived = false)
    (hdr : s1.domesticInheritor.hasReceived = false) :
    distributeInheritance s1 now = .ok
      { s1 with
          balances := upd
            (upd s1.balances s1.overseasInheritor.wallet
              (s1.balances s1.overseasInheritor.wallet + SHARE_AMOUNT))
            s1.domesticInheritor.wallet
            ((upd s1.balances s1.overseasInheritor.wallet
              (s1.balances s1.overseasInheritor.wallet + SHARE_AMOUNT))
              s1.domesticInheritor.wallet + SHARE_AMOUNT)
          overseasInheritor :=
            { s1.overseasInheritor with hasReceived := true, receivedAmount := SHARE_AMOUNT }
          domesticInheritor :=
            { s1.domesticInheritor with hasReceived := true, receivedAmount := SHARE_AMOUNT }
          isInheritanceDistributed := true
          events := s1.events ++
            [.InheritanceDistributed s1.overseasInheritor.wallet s1.domesticInheritor.wallet
              SHARE_AMOUNT now] } := by
  unfold distributeInheritance
  rw [if_neg (by simp [hnd]), if_neg (by omega)]
  simp [hor, hdr]

/-- Once distributed, a successful verification changes no balance and
keeps the flag set: the check phase returns the state unchanged. -/
theorem verify_after_distributed (t t2 : State) (sender h2 n2 : Nat)
    (hd : t.isInheritanceDistributed = true)
    (hok : verifyDocument t sender h2 n2 = .ok t2) :
    t2.balances = t.balances ∧ t2.isInheritanceDistributed = true := by
  unfold verifyDocument at hok
  repeat' split at hok
  any_goals exact Except.noConfusion hok
  unfold checkAndDistributeInheritance at hok
  rw [if_pos hd] at hok
  injection hok with h3
  subst h3
  exact ⟨rfl, hd⟩

/-- C4: in the fixed-split variant with the pool at or above
10,000,000,000 and distribution pending, the bank's verification of any
single registered unverified document succeeds and in the same call
credits exactly 5,000,000,000 (`SHARE_AMOUNT`) to each of the two
distinct inheritor wallets, marking both received and the distribution
done — and once done, every later successful verification leaves every
balance unchanged. -/
theorem simple_first_verification_distributes (s : State) (documentHash now : Nat)
    (hnd : s.isInheritanceDistributed = false)
    (hbal : 10000000000 ≤ s.contractBalance)
    (hor : s.overseasInheritor.hasReceived = false)
    (hdr : s.domesticInheritor.hasReceived = false)
    (hw : s.overseasInheritor.wallet ≠ s.domesticInheritor.wallet)
    (hex : (s.documents documentHash).documentHash ≠ 0)
    (hnv : (s.documents documentHash).isVerified = false)
    (hmem : documentHash ∈ s.allDocumentHashes) :
    FixedSplitAutoDistributeSpec s documentHash now := by
  have hw2 : s.domesticInheritor.wallet ≠ s.overseasInheritor.wallet := Ne.symm hw
  unfold FixedSplitAutoDistributeSpec
  refine ⟨rfl, ?_, ?_⟩
  · rw [verifyDocument_bank_unverified s documentHash now hex hnv]
    rw [checkAndDistribute_fires (verifiedState s documentHash now) now hnd
      ⟨documentHash, hmem, by simp [verifiedState, upd]⟩]
    rw [distributeInheritance_fresh (verifiedState s documentHash now) now hnd hbal hor hdr]
    refine ⟨_, rfl, ?_, ?_, rfl, rfl, rfl, rfl, rfl⟩
    · simp [verifiedState, upd, hw, hw2]
    · simp [verifiedState, upd, hw, hw2]
  · intro t t2 sender h2 n2 hd hok
    exact verify_after_distributed t t2 sender h2 n2 hd hok

/-- Witness for C4 at `simpleBase`: verifying document 7 credits wallets
2 and 3 with 5,000,000,000 each. -/
theorem simple_first_verification_distributes_witness :
    simpleBase.isInheritanceDistributed = false
    ∧ 10000000000 ≤ simpleBase.contractBalance
    ∧ simpleBase.overseasInheritor.hasReceived = false
    ∧ simpleBase.domesticInheritor.hasReceived = false
    ∧ simpleBase.overseasInheritor.wallet ≠ simpleBase.domesticInheritor.wallet
    ∧ (simpleBase.documents 7).documentHash ≠ 0
    ∧ (simpleBase.documents 7).isVerified = false
    ∧ 7 ∈ simpleBase.allDocumentHashes
    ∧ FixedSplitAutoDistributeSpec simpleBase 7 9 :=
  ⟨by decide, by decide, by decide, by decide, by decide, by decide, by decide, by decide,
    simple_first_verification_distributes simpleBase 7 9 (by decide) (by decide) (by decide)
      (by decide) (by decide) (by decide) (by decide) (by decide)⟩

/-- C10: in the fixed-split variant, while the distribution is pending
and the pool is below 10,000,000,000, the bank's verification of any
existing unverified registered document reverts whole with
`InsufficientFunds` — the auto-triggered distribution's balance require
aborts the call — so no document can be verified until the pool is
funded. -/
theorem simple_verify_underfunded_reverts (s : State) (documentHash now : Nat)
    (hnd : s.isInheritanceDistributed = false)
    (hbal : s.contractBalance < 10000000000)
    (hex : (s.documents documentHash).documentHash ≠ 0)
    (hnv : (s.documents documentHash).isVerified = false)
    (hmem : documentHash ∈ s.allDocumentHashes) :
    verifyDocument s s.bankAddress documentHash now = .error .InsufficientFunds
    ∧ (run s (verifyDocument s s.bankAddress documentHash now)).1 = s := by
  have hstep : verifyDocument s s.bankAddress documentHash now = .error .InsufficientFunds := by
    rw [verifyDocument_bank_unverified s documentHash now hex hnv]
    rw [checkAndDistribute_fires (verifiedState s documentHash now) now hnd
      ⟨documentHash, hmem, by simp [verifiedState, upd]⟩]
    unfold distributeInheritance
    rw [if_neg (by simp [verifiedState, hnd]),
      if_pos (show (verifiedState s documentHash now).contractBalance < 10000000000 from hbal)]
  exact ⟨hstep, by rw [hstep]; rfl⟩

/-- Witness for C10 at `simpleUnderfunded` (pool 9,999,999,999). -/
theorem simple_verify_underfunded_reverts_witness :
    simpleUnderfunded.isInheritanceDistributed = false
    ∧ simpleUnderfunded.contractBalance < 10000000000
    ∧ (simpleUnderfunded.documents 7).documentHash ≠ 0
    ∧ (simpleUnderfunded.documents 7).isVerified = false
    ∧ 7 ∈ simpleUnderfunded.allDocumentHashes
    ∧ verifyDocument simpleUnderfunded simpleUnderfunded.bankAddress 7 9
        = .error .InsufficientFunds :=
  ⟨by decide, by decide, by decide, by decide, by decide,
    (simple_verify_underfunded_reverts simpleUnderfunded 7 9 (by decide) (by decide)
      (by decide) (by decide) (by decide)).1⟩

end SimpleInheritance

end Inheritance

